import Mathlib

/-!
Verification of the task-store and HTTP-handler semantics of a Go/PostgreSQL
to-do CRUD backend.  The embedding below mirrors, function by function:

* `internal/models/todo.go` — the `Todo`, `CreateTodoRequest` and
  `UpdateTodoRequest` shapes (Go pointer fields become `Option`);
* `internal/repository/todo_repository.go` — `Create`, `GetAll`, `GetByID`,
  `Update`, `Delete`, with the database table modelled as a list of rows plus
  the SERIAL next-id counter, and SQL `NOW()` / Go `time.Now()` passed in as
  explicit `Nat` timestamps;
* `internal/handlers/todo_handler.go` — the five handlers, with the HTTP
  response modelled as a status code plus a body shape (Go `encoding/json`
  renders a nil slice as JSON `null`, which `goSliceJson` reproduces);
* `internal/router/router.go` — the `{id:[0-9]+}` route constraint, with
  gorilla/mux falling through to its 404 not-found response when the segment
  does not match;
* `strconv.ParseInt(s, 10, 64)` — modelled by `parseInt64` (sign handling,
  digit check, signed 64-bit range check).
-/

namespace TodoApp

/-- A row of the `todos` table / the `models.Todo` struct.  Timestamps are
abstract `Nat` instants; `completedAt` is `none` for SQL NULL (Go nil pointer). -/
structure Todo where
  id : Int
  title : String
  description : String
  completed : Bool
  createdAt : Nat
  updatedAt : Nat
  completedAt : Option Nat
deriving DecidableEq, Repr

/-- The `models.CreateTodoRequest` payload. -/
structure CreateTodoRequest where
  title : String
  description : String
deriving DecidableEq, Repr

/-- The `models.UpdateTodoRequest` payload: each field is a Go pointer,
`none` meaning the field was omitted from the JSON body. -/
structure UpdateTodoRequest where
  title : Option String
  description : Option String
  completed : Option Bool
deriving DecidableEq, Repr

/-- The database state: the rows of the `todos` table plus the SERIAL
sequence value that the next insert will receive. -/
structure Store where
  rows : List Todo
  nextId : Int
deriving DecidableEq, Repr

/-- The empty database right after `CREATE TABLE`, before any insert. -/
def emptyStore : Store := { rows := [], nextId := 1 }

/-- `TodoRepository.GetByID`: `SELECT ... WHERE id = $1`, `sql.ErrNoRows`
becoming `none`. -/
def GetByID (s : Store) (id : Int) : Option Todo :=
  s.rows.find? (fun t => t.id == id)

/-- The `ORDER BY created_at DESC` comparison used by `GetAll`. -/
def byCreatedDesc (a b : Todo) : Prop := b.createdAt ≤ a.createdAt

instance : DecidableRel byCreatedDesc :=
  fun a b => inferInstanceAs (Decidable (b.createdAt ≤ a.createdAt))

instance : IsTotal Todo byCreatedDesc := ⟨fun a b => Nat.le_total b.createdAt a.createdAt⟩

instance : IsTrans Todo byCreatedDesc := ⟨fun _ _ _ h1 h2 => Nat.le_trans h2 h1⟩

/-- `TodoRepository.GetAll`: every row, ordered by `created_at` descending. -/
def GetAll (s : Store) : List Todo :=
  List.insertionSort byCreatedDesc s.rows

/-- `TodoRepository.Create`: `INSERT INTO todos (title, description,
created_at, updated_at) VALUES ($1, $2, NOW(), NOW()) RETURNING ...`.
`completed` takes its column default `FALSE`, `completed_at` stays NULL,
the id is assigned by the SERIAL sequence.  Returns the inserted row and
the new store. -/
def CreateStore (s : Store) (req : CreateTodoRequest) (now : Nat) : Todo × Store :=
  let newTodo : Todo :=
    { id := s.nextId, title := req.title, description := req.description,
      completed := false, createdAt := now, updatedAt := now, completedAt := none }
  (newTodo, { rows := s.rows ++ [newTodo], nextId := s.nextId + 1 })

/-- The `completed` reconciliation step of `TodoRepository.Update`: only when
the payload provides `completed` and the provided value differs from the
stored one is the flag flipped, `completed_at` becoming `time.Now()` on a
false-to-true transition and NULL on a true-to-false one. -/
def applyCompleted (reqCompleted : Option Bool) (completed : Bool)
    (completedAt : Option Nat) (goNow : Nat) : Bool × Option Nat :=
  match reqCompleted with
  | some b =>
      if b != completed then
        (b, if b then some goNow else none)
      else
        (completed, completedAt)
  | none => (completed, completedAt)

/-- The row `TodoRepository.Update` writes when the current row is `cur`:
title and description take the payload value when provided and the stored one
otherwise (Go initialises the local from the row and overwrites it when the
pointer is non-nil, which is exactly `Option.getD`), the completion pair goes
through `applyCompleted`, `created_at` is not in the SET list, and
`updated_at` becomes the database `NOW()`. -/
def updateRow (cur : Todo) (req : UpdateTodoRequest) (goNow dbNow : Nat) : Todo :=
  let comp := applyCompleted req.completed cur.completed cur.completedAt goNow
  { id := cur.id,
    title := req.title.getD cur.title,
    description := req.description.getD cur.description,
    completed := comp.1, createdAt := cur.createdAt,
    updatedAt := dbNow, completedAt := comp.2 }

/-- `TodoRepository.Update`: read the current row (`none` result when absent),
reconcile the three optional payload fields against it, then
`UPDATE ... SET title, description, completed, completed_at, updated_at = NOW()
WHERE id = $5 RETURNING ...`.  `goNow` is Go's `time.Now()` used for
`completed_at`; `dbNow` is the database `NOW()` used for `updated_at`.
Returns the RETURNING row and the new store. -/
def Update (s : Store) (id : Int) (req : UpdateTodoRequest)
    (goNow dbNow : Nat) : Option Todo × Store :=
  match GetByID s id with
  | none => (none, s)
  | some cur =>
    let newRow := updateRow cur req goNow dbNow
    (some newRow,
     { s with rows := s.rows.map (fun u => if u.id == id then newRow else u) })

/-- `TodoRepository.Delete`: `DELETE FROM todos WHERE id = $1`; zero affected
rows is not an error, so the operation always succeeds. -/
def DeleteStore (s : Store) (id : Int) : Store :=
  { s with rows := s.rows.filter (fun t => !(t.id == id)) }

/-- Value of a string of decimal digits, most significant first — the
accumulation loop inside Go's `strconv.ParseUint`. -/
def digitsToNat (cs : List Char) : Nat :=
  cs.foldl (fun acc c => acc * 10 + (c.toNat - 48)) 0

/-- Go's `strconv.ParseInt(s, 10, 64)` on the character list of `s`:
optional sign, at least one digit, all digits, and the value must fit a
signed 64-bit integer; any violation is an error (`none`). -/
def parseInt64Core (cs : List Char) : Option Int :=
  match cs with
  | [] => none
  | c :: rest =>
    let neg := c == '-'
    let ds := if c == '-' || c == '+' then rest else c :: rest
    if ds.isEmpty then none
    else if ds.all Char.isDigit then
      let n := digitsToNat ds
      if neg then
        if n ≤ 2 ^ 63 then some (-(n : Int)) else none
      else
        if n < 2 ^ 63 then some ((n : Int)) else none
    else none

/-- `strconv.ParseInt(s, 10, 64)` as used by the three id-taking handlers. -/
def parseInt64 (s : String) : Option Int :=
  parseInt64Core s.data

/-- Whether a path segment matches the anchored route pattern `[0-9]+` of
`/todos/{id:[0-9]+}`: non-empty and all decimal digits. -/
def matchIdPattern (s : String) : Bool :=
  !s.data.isEmpty && s.data.all Char.isDigit

/-- Shape of an HTTP response body: a plain-text error (`http.Error`), a JSON
object for one task, JSON `null` (Go marshalling of a nil slice), a JSON
array of tasks, or the empty body of a 204. -/
inductive Body where
  | text (msg : String)
  | json (t : Todo)
  | jsonNull
  | jsonArr (ts : List Todo)
  | empty
deriving DecidableEq, Repr

/-- An HTTP response: status code plus body shape. -/
structure Response where
  status : Nat
  body : Body
deriving DecidableEq, Repr

/-- Go `encoding/json` marshalling of a `[]*models.Todo` slice built by
appending to a nil slice: the nil (empty) slice renders as JSON `null`,
a non-empty one as a JSON array. -/
def goSliceJson (ts : List Todo) : Body :=
  if ts.isEmpty then Body.jsonNull else Body.jsonArr ts

/-- `TodoHandler.GetAllTodos` on the no-storage-error path. -/
def getAllTodosHandler (s : Store) : Response :=
  { status := 200, body := goSliceJson (GetAll s) }

/-- `TodoHandler.GetTodo` on the no-storage-error path: parse the id segment,
404 when the row is absent, otherwise 200 with the row. -/
def getTodoHandler (s : Store) (idSeg : String) : Response :=
  match parseInt64 idSeg with
  | none => { status := 400, body := Body.text "Invalid todo ID" }
  | some id =>
    match GetByID s id with
    | none => { status := 404, body := Body.text "Todo not found" }
    | some t => { status := 200, body := Body.json t }

/-- GET `/api/v1/todos/{id:[0-9]+}` as routed: a segment failing the digit
pattern never reaches the handler — gorilla/mux answers with its default
404 not-found response. -/
def routeGetTodo (s : Store) (seg : String) : Response :=
  if matchIdPattern seg then getTodoHandler s seg
  else { status := 404, body := Body.text "404 page not found" }

/-- `TodoHandler.UpdateTodo` on the no-storage-error path, after the body has
been decoded to an `UpdateTodoRequest`. -/
def updateTodoHandler (s : Store) (idSeg : String) (req : UpdateTodoRequest)
    (goNow dbNow : Nat) : Response × Store :=
  match parseInt64 idSeg with
  | none => ({ status := 400, body := Body.text "Invalid todo ID" }, s)
  | some id =>
    let r := Update s id req goNow dbNow
    match r.1 with
    | none => ({ status := 404, body := Body.text "Todo not found" }, r.2)
    | some t => ({ status := 200, body := Body.json t }, r.2)

/-- `TodoHandler.DeleteTodo` on the no-storage-error path: a 204 with empty
body whether or not the id existed. -/
def deleteTodoHandler (s : Store) (idSeg : String) : Response × Store :=
  match parseInt64 idSeg with
  | none => ({ status := 400, body := Body.text "Invalid todo ID" }, s)
  | some id => ({ status := 204, body := Body.empty }, DeleteStore s id)

/-- Stores reachable from the empty table through `Create` and `Update`. -/
inductive Reachable : Store → Prop
  | init : Reachable emptyStore
  | create (s : Store) (req : CreateTodoRequest) (now : Nat) :
      Reachable s → Reachable (CreateStore s req now).2
  | update (s : Store) (id : Int) (req : UpdateTodoRequest) (goNow dbNow : Nat) :
      Reachable s → Reachable (Update s id req goNow dbNow).2

/-- The completion invariant on a store: a row's `completed_at` is non-NULL
exactly when its `completed` flag is true. -/
def CompletionOk (s : Store) : Prop :=
  ∀ t ∈ s.rows, t.completedAt.isSome = t.completed

/-- Well-formedness of the SERIAL counter: every stored id is below the next
value the sequence will hand out. -/
def WF (s : Store) : Prop :=
  ∀ t ∈ s.rows, t.id < s.nextId

/-- A concrete row used to instantiate the universally quantified theorems. -/
def sampleTodo : Todo :=
  { id := 1, title := "Learn Go", description := "Study Go basics",
    completed := false, createdAt := 3, updatedAt := 4, completedAt := none }

/-- A concrete one-row store used to instantiate the theorems. -/
def sampleStore : Store := { rows := [sampleTodo], nextId := 2 }

/-! ### Helper lemmas -/

theorem getByID_mem {s : Store} {id : Int} {t : Todo}
    (h : GetByID s id = some t) : t ∈ s.rows :=
  List.mem_of_find?_eq_some h

theorem getByID_id {s : Store} {id : Int} {t : Todo}
    (h : GetByID s id = some t) : t.id = id := by
  have hp := List.find?_some h
  simpa using hp

theorem update_of_getByID_none {s : Store} {id : Int}
    (req : UpdateTodoRequest) (goNow dbNow : Nat) (h : GetByID s id = none) :
    Update s id req goNow dbNow = (none, s) := by
  simp [Update, h]

theorem update_of_getByID_some {s : Store} {id : Int} {t : Todo}
    (req : UpdateTodoRequest) (goNow dbNow : Nat) (h : GetByID s id = some t) :
    Update s id req goNow dbNow =
      (some (updateRow t req goNow dbNow),
       { s with rows := s.rows.map (fun u => if u.id == id then updateRow t req goNow dbNow else u) }) := by
  simp [Update, h]

theorem find?_map_replace (l : List Todo) (id : Int) (newRow : Todo)
    (hnew : newRow.id = id) (t : Todo)
    (h : l.find? (fun u => u.id == id) = some t) :
    (l.map (fun u => if u.id == id then newRow else u)).find?
      (fun u => u.id == id) = some newRow := by
  induction l with
  | nil => simp at h
  | cons a l ih =>
    by_cases ha : a.id = id
    · have h1 : (if (a.id == id) = true then newRow else a) = newRow := by
        simp [ha]
      simp only [List.map_cons, h1]
      exact List.find?_cons_of_pos _ (by simp [hnew])
    · have h2 : l.find? (fun u => u.id == id) = some t := by
        rwa [List.find?_cons_of_neg _ (by simp [ha])] at h
      have h1 : (if (a.id == id) = true then newRow else a) = a := by
        simp [ha]
      simp only [List.map_cons, h1]
      rw [List.find?_cons_of_neg _ (by simp [ha])]
      exact ih h2

theorem find?_filter_ne (l : List Todo) (id : Int) :
    (l.filter (fun t => !(t.id == id))).find? (fun t => t.id == id) = none := by
  apply List.find?_eq_none.mpr
  intro x hx
  have hpred := (List.mem_filter.mp hx).2
  simp at hpred ⊢
  exact hpred

theorem find?_append_lastOf (l : List Todo) (x : Todo) (p : Todo → Bool)
    (hl : ∀ y ∈ l, p y = false) (hx : p x = true) :
    (l ++ [x]).find? p = some x := by
  induction l with
  | nil => simp [List.find?, hx]
  | cons a l ih =>
    have ha := hl a (by simp)
    rw [List.cons_append, List.find?_cons_of_neg _ (by simp [ha])]
    exact ih (fun y hy => hl y (by simp [hy]))

theorem completionOk_updateRow {cur : Todo} (req : UpdateTodoRequest)
    (goNow dbNow : Nat) (h : cur.completedAt.isSome = cur.completed) :
    (updateRow cur req goNow dbNow).completedAt.isSome =
      (updateRow cur req goNow dbNow).completed := by
  cases rc : req.completed with
  | none => simpa [updateRow, applyCompleted, rc] using h
  | some b =>
    by_cases hb : b = cur.completed
    · simpa [updateRow, applyCompleted, rc, hb] using h
    · cases b
      · have hc : cur.completed = true := by
          cases hcc : cur.completed <;> simp_all
        simp [updateRow, applyCompleted, rc, hc]
      · have hc : cur.completed = false := by
          cases hcc : cur.completed <;> simp_all
        simp [updateRow, applyCompleted, rc, hc]

theorem completionOk_of_reachable : ∀ s, Reachable s → CompletionOk s := by
  intro s h
  induction h with
  | init =>
    intro t ht
    simp [emptyStore] at ht
  | create s1 req now _ ih =>
    intro t ht
    simp only [CreateStore, List.mem_append, List.mem_singleton] at ht
    rcases ht with ht | ht
    · exact ih t ht
    · subst ht; rfl
  | update s1 id req goNow dbNow _ ih =>
    intro t ht
    cases hg : GetByID s1 id with
    | none =>
      rw [update_of_getByID_none req goNow dbNow hg] at ht
      exact ih t ht
    | some cur =>
      have hrows : (Update s1 id req goNow dbNow).2.rows =
          s1.rows.map (fun u => if u.id == id then updateRow cur req goNow dbNow else u) := by
        rw [update_of_getByID_some req goNow dbNow hg]
      rw [hrows] at ht
      rcases List.mem_map.mp ht with ⟨u, hu, hut⟩
      by_cases h2 : u.id = id
      · have heq : t = updateRow cur req goNow dbNow := by
          rw [← hut]; simp [h2]
        rw [heq]
        exact completionOk_updateRow req goNow dbNow (ih cur (getByID_mem hg))
      · have heq : t = u := by rw [← hut]; simp [h2]
        rw [heq]
        exact ih u hu

/-! ### Claim theorems -/

/-- C1: `Update(id, req)` signals NotFound when no row with `id` exists;
otherwise title and description take the provided value when present and the
stored one when absent, `completed` becomes the provided value (unchanged
when absent or equal to the stored flag), `completed_at` is set to now on a
false-to-true flip, cleared on a true-to-false flip, and untouched otherwise,
`created_at` is preserved, `updated_at` is refreshed, and the returned task
is exactly the post-write row as read back from storage. -/
theorem update_request_semantics (s : Store) (id : Int) (req : UpdateTodoRequest)
    (goNow dbNow : Nat) :
    (GetByID s id = none → Update s id req goNow dbNow = (none, s)) ∧
    (∀ t, GetByID s id = some t →
      (Update s id req goNow dbNow).1 = some
        { id := t.id,
          title := req.title.getD t.title,
          description := req.description.getD t.description,
          completed := req.completed.getD t.completed,
          createdAt := t.createdAt,
          updatedAt := dbNow,
          completedAt :=
            if req.completed.getD t.completed = t.completed then t.completedAt
            else if req.completed.getD t.completed then some goNow else none } ∧
      GetByID (Update s id req goNow dbNow).2 id = (Update s id req goNow dbNow).1) := by
  constructor
  · intro h
    exact update_of_getByID_none req goNow dbNow h
  · intro t h
    have hu := update_of_getByID_some req goNow dbNow h
    constructor
    · rw [hu]
      cases rc : req.completed with
      | none => simp [updateRow, applyCompleted, rc]
      | some b =>
        by_cases hb : b = t.completed
        · simp [updateRow, applyCompleted, rc, hb]
        · have ht : t.completed = !b := by
            cases b <;> cases hc : t.completed <;> simp_all
          simp [updateRow, applyCompleted, rc, ht]
    · rw [hu]
      have hid : (updateRow t req goNow dbNow).id = id := by
        have : (updateRow t req goNow dbNow).id = t.id := rfl
        rw [this]; exact getByID_id h
      exact find?_map_replace s.rows id _ hid t h

/-- C1 witness: toggling `completed` to true on the sample store. -/
theorem update_request_semantics_witness :
    (Update sampleStore 1 ⟨none, none, some true⟩ 7 9).1 = some
      { id := 1, title := "Learn Go", description := "Study Go basics",
        completed := true, createdAt := 3, updatedAt := 9, completedAt := some 7 } := by
  have h := ((update_request_semantics sampleStore 1 ⟨none, none, some true⟩ 7 9).2
    sampleTodo (by decide)).1
  rw [h]
  decide

/-- C2: every store reachable through Create and Update satisfies the
completion invariant (`completed_at` is non-absent iff `completed` is true);
moreover an Update assigns `completed_at` exactly on a false-to-true
transition, clears it exactly on a true-to-false transition, and leaves both
`completed` and `completed_at` untouched when the payload's `completed` is
absent or equal to the stored flag, whatever the title and description
fields of the same request do. -/
theorem completion_invariant :
    (∀ s, Reachable s → CompletionOk s) ∧
    (∀ (s : Store) (id : Int) (req : UpdateTodoRequest) (goNow dbNow : Nat) (t u : Todo),
      GetByID s id = some t → (Update s id req goNow dbNow).1 = some u →
      ((req.completed = some true → t.completed = false → u.completedAt = some goNow) ∧
       (req.completed = some false → t.completed = true → u.completedAt = none) ∧
       (req.completed.getD t.completed = t.completed →
         u.completedAt = t.completedAt ∧ u.completed = t.completed))) := by
  constructor
  · exact completionOk_of_reachable
  · intro s id req goNow dbNow t u h hu
    rw [update_of_getByID_some req goNow dbNow h] at hu
    have hu2 : u = updateRow t req goNow dbNow := by
      have := hu
      simp at this
      exact this.symm
    refine ⟨?_, ?_, ?_⟩
    · intro hc hf
      rw [hu2]
      simp [updateRow, applyCompleted, hc, hf]
    · intro hc hf
      rw [hu2]
      simp [updateRow, applyCompleted, hc, hf]
    · intro hg
      rw [hu2]
      cases rc : req.completed with
      | none => simp [updateRow, applyCompleted, rc]
      | some b =>
        have hb : b = t.completed := by simpa [rc] using hg
        simp [updateRow, applyCompleted, rc, hb]

/-- C2 witness: the row created by a Create on the empty store satisfies the
completion invariant. -/
theorem completion_invariant_witness :
    (Todo.mk 1 "Learn Go" "Study Go basics" false 3 3 none).completedAt.isSome =
      (Todo.mk 1 "Learn Go" "Study Go basics" false 3 3 none).completed := by
  have h := completion_invariant
  have hr : Reachable (CreateStore emptyStore ⟨"Learn Go", "Study Go basics"⟩ 3).2 :=
    Reachable.create emptyStore ⟨"Learn Go", "Study Go basics"⟩ 3 Reachable.init
  have hm : Todo.mk 1 "Learn Go" "Study Go basics" false 3 3 none ∈
      (CreateStore emptyStore ⟨"Learn Go", "Study Go basics"⟩ 3).2.rows := by
    decide
  exact h.1 _ hr _ hm

/-- C3: Create returns a task with `completed = false`, `completed_at`
absent, `created_at = updated_at`, the storage-assigned id, and the payload's
title and description. -/
theorem create_returns_fresh_task (s : Store) (req : CreateTodoRequest)
    (now : Nat) (h : req.title ≠ "") :
    (CreateStore s req now).1.completed = false ∧
    (CreateStore s req now).1.completedAt = none ∧
    (CreateStore s req now).1.createdAt = (CreateStore s req now).1.updatedAt ∧
    (CreateStore s req now).1.id = s.nextId ∧
    (CreateStore s req now).1.title = req.title ∧
    (CreateStore s req now).1.description = req.description :=
  ⟨rfl, rfl, rfl, rfl, rfl, rfl⟩

/-- C3 witness: creating a concrete task on the empty store. -/
theorem create_returns_fresh_task_witness :
    (CreateStore emptyStore ⟨"Buy groceries", "Milk, eggs"⟩ 5).1.completed = false ∧
    (CreateStore emptyStore ⟨"Buy groceries", "Milk, eggs"⟩ 5).1.completedAt = none ∧
    (CreateStore emptyStore ⟨"Buy groceries", "Milk, eggs"⟩ 5).1.createdAt =
      (CreateStore emptyStore ⟨"Buy groceries", "Milk, eggs"⟩ 5).1.updatedAt ∧
    (CreateStore emptyStore ⟨"Buy groceries", "Milk, eggs"⟩ 5).1.id = emptyStore.nextId ∧
    (CreateStore emptyStore ⟨"Buy groceries", "Milk, eggs"⟩ 5).1.title = "Buy groceries" ∧
    (CreateStore emptyStore ⟨"Buy groceries", "Milk, eggs"⟩ 5).1.description = "Milk, eggs" :=
  create_returns_fresh_task emptyStore ⟨"Buy groceries", "Milk, eggs"⟩ 5 (by decide)

/-- C4: provided time does not run backwards (the Go clock at the update is
at least the row's prior `updated_at`), an Update toggling `completed` from
false to true sets `completed_at` to a non-absent timestamp no earlier than
the prior `updated_at`, and one toggling true to false clears `completed_at`
to absent. -/
theorem toggle_completedAt (s : Store) (id : Int) (req : UpdateTodoRequest)
    (goNow dbNow : Nat) (t : Todo)
    (h : GetByID s id = some t) (hmono : t.updatedAt ≤ goNow) :
    (req.completed = some true → t.completed = false →
      ∃ n, ((Update s id req goNow dbNow).1.map Todo.completedAt) = some (some n) ∧
        t.updatedAt ≤ n) ∧
    (req.completed = some false → t.completed = true →
      ((Update s id req goNow dbNow).1.map Todo.completedAt) = some none) := by
  rw [update_of_getByID_some req goNow dbNow h]
  constructor
  · intro hc hf
    exact ⟨goNow, by simp [updateRow, applyCompleted, hc, hf], hmono⟩
  · intro hc hf
    simp [updateRow, applyCompleted, hc, hf]

/-- C4 witness: toggling the sample row to completed at time 7 (its prior
`updated_at` is 4). -/
theorem toggle_completedAt_witness :
    ∃ n, ((Update sampleStore 1 ⟨none, none, some true⟩ 7 9).1.map Todo.completedAt) =
      some (some n) ∧ sampleTodo.updatedAt ≤ n :=
  (toggle_completedAt sampleStore 1 ⟨none, none, some true⟩ 7 9 sampleTodo
    (by decide) (by decide)).1 rfl rfl

/-- C5 counterexample: a GET whose id segment is the non-numeric "abc" fails
the router's `[0-9]+` pattern and is answered 404, not the claimed 400. -/
theorem nonNumeric_get_counterexample :
    (routeGetTodo emptyStore "abc").status = 404 ∧
    ¬((routeGetTodo emptyStore "abc").status = 400) := by
  decide

/-- C5 amended: a non-numeric id segment fails the route pattern `[0-9]+`,
so the request never reaches the handler and the application responds with
the router's 404 not-found response, not 400. -/
theorem nonNumeric_get_routed_404 (s : Store) (seg : String)
    (h : matchIdPattern seg = false) :
    (routeGetTodo s seg).status = 404 ∧
    (routeGetTodo s seg).body = Body.text "404 page not found" := by
  simp [routeGetTodo, h]

/-- C5 amended witness: the segment "abc" on the empty store. -/
theorem nonNumeric_get_routed_404_witness :
    (routeGetTodo emptyStore "abc").status = 404 ∧
    (routeGetTodo emptyStore "abc").body = Body.text "404 page not found" :=
  nonNumeric_get_routed_404 emptyStore "abc" (by decide)

/-- C6 counterexample: on the empty store the list endpoint responds 200 but
its body is JSON `null` (Go marshalling of the nil slice), not the empty
JSON array. -/
theorem list_empty_counterexample :
    (getAllTodosHandler emptyStore).status = 200 ∧
    (getAllTodosHandler emptyStore).body = Body.jsonNull ∧
    (getAllTodosHandler emptyStore).body ≠ Body.jsonArr [] := by
  decide

/-- C6 amended: with no storage error the list endpoint always responds 200;
a non-empty store yields a JSON array holding every task ordered by
`created_at` descending, while the empty store yields body JSON `null`
(not an error, but not an empty JSON array either). -/
theorem list_all_response (s : Store) :
    (getAllTodosHandler s).status = 200 ∧
    (s.rows = [] → (getAllTodosHandler s).body = Body.jsonNull) ∧
    (s.rows ≠ [] → ∃ l, (getAllTodosHandler s).body = Body.jsonArr l ∧
      l.Perm s.rows ∧ List.Sorted byCreatedDesc l) := by
  refine ⟨rfl, ?_, ?_⟩
  · intro h
    simp [getAllTodosHandler, goSliceJson, GetAll, h]
  · intro h
    have hperm := List.perm_insertionSort byCreatedDesc s.rows
    have hlen : (GetAll s).length = s.rows.length := hperm.length_eq
    have hne : (GetAll s).isEmpty = false := by
      cases hg : GetAll s with
      | nil =>
        exfalso
        apply h
        rw [hg] at hlen
        exact List.length_eq_zero.mp hlen.symm
      | cons a l => rfl
    refine ⟨GetAll s, ?_, hperm, List.sorted_insertionSort byCreatedDesc s.rows⟩
    simp [getAllTodosHandler, goSliceJson, hne]

/-- C6 amended witness: the one-row sample store. -/
theorem list_all_response_witness :
    ∃ l, (getAllTodosHandler sampleStore).body = Body.jsonArr l ∧
      l.Perm sampleStore.rows ∧ List.Sorted byCreatedDesc l :=
  (list_all_response sampleStore).2.2 (by decide)

/-- C7: deleting any id — whether or not a row with that id exists —
succeeds with a 204 empty response, and a subsequent GetByID on that id
yields NotFound. -/
theorem delete_semantics (s : Store) (seg : String) (id : Int)
    (h : parseInt64 seg = some id) :
    (deleteTodoHandler s seg).1.status = 204 ∧
    (deleteTodoHandler s seg).1.body = Body.empty ∧
    GetByID (deleteTodoHandler s seg).2 id = none := by
  refine ⟨by simp [deleteTodoHandler, h], by simp [deleteTodoHandler, h], ?_⟩
  have hget : GetByID (DeleteStore s id) id = none := by
    simp only [GetByID, DeleteStore]
    exact find?_filter_ne s.rows id
  simpa [deleteTodoHandler, h] using hget

/-- C7 witness: deleting id 1 from the sample store. -/
theorem delete_semantics_witness :
    (deleteTodoHandler sampleStore "1").1.status = 204 ∧
    (deleteTodoHandler sampleStore "1").1.body = Body.empty ∧
    GetByID (deleteTodoHandler sampleStore "1").2 1 = none :=
  delete_semantics sampleStore "1" 1 (by decide)

/-- C8: on a well-formed store (every stored id below the SERIAL counter),
Create followed immediately by GetByID on the returned id yields exactly the
task Create returned, identical in every field. -/
theorem create_then_getByID (s : Store) (req : CreateTodoRequest) (now : Nat)
    (hwf : WF s) (htitle : req.title ≠ "") :
    GetByID (CreateStore s req now).2 (CreateStore s req now).1.id =
      some (CreateStore s req now).1 := by
  unfold GetByID
  exact find?_append_lastOf s.rows (CreateStore s req now).1 _
    (fun y hy => beq_eq_false_iff_ne.mpr (Int.ne_of_lt (hwf y hy)))
    (by simp)

/-- C8 witness: creating a second row on the sample store and reading it
back. -/
theorem create_then_getByID_witness :
    GetByID (CreateStore sampleStore ⟨"Build a REST API", "Go and PostgreSQL"⟩ 9).2
        (CreateStore sampleStore ⟨"Build a REST API", "Go and PostgreSQL"⟩ 9).1.id =
      some (CreateStore sampleStore ⟨"Build a REST API", "Go and PostgreSQL"⟩ 9).1 :=
  create_then_getByID sampleStore ⟨"Build a REST API", "Go and PostgreSQL"⟩ 9
    (by intro t ht; simp [sampleStore] at ht; rw [ht]; decide) (by decide)

/-- C9: an Update whose payload provides none of the three fields still
succeeds with 200 and performs the write: the returned task keeps the prior
id, title, description, completed, completed_at and created_at, only
`updated_at` is refreshed, and the row is rewritten in the store. -/
theorem empty_payload_update (s : Store) (seg : String) (id : Int) (t : Todo)
    (goNow dbNow : Nat) (hseg : parseInt64 seg = some id) (h : GetByID s id = some t) :
    (Update s id ⟨none, none, none⟩ goNow dbNow).1 = some { t with updatedAt := dbNow } ∧
    (Update s id ⟨none, none, none⟩ goNow dbNow).2.rows =
      s.rows.map (fun u => if u.id == id then { t with updatedAt := dbNow } else u) ∧
    (updateTodoHandler s seg ⟨none, none, none⟩ goNow dbNow).1 =
      { status := 200, body := Body.json { t with updatedAt := dbNow } } := by
  have hrow : updateRow t ⟨none, none, none⟩ goNow dbNow = { t with updatedAt := dbNow } := rfl
  have hu := update_of_getByID_some (⟨none, none, none⟩ : UpdateTodoRequest) goNow dbNow h
  refine ⟨?_, ?_, ?_⟩
  · rw [hu, hrow]
  · rw [hu]
    simp [hrow]
  · simp [updateTodoHandler, hseg, hu, hrow]

/-- C9 witness: the empty payload on the sample store's row 1. -/
theorem empty_payload_update_witness :
    (Update sampleStore 1 ⟨none, none, none⟩ 7 9).1 =
      some { sampleTodo with updatedAt := 9 } ∧
    (Update sampleStore 1 ⟨none, none, none⟩ 7 9).2.rows =
      sampleStore.rows.map (fun u => if u.id == 1 then { sampleTodo with updatedAt := 9 } else u) ∧
    (updateTodoHandler sampleStore "1" ⟨none, none, none⟩ 7 9).1 =
      { status := 200, body := Body.json { sampleTodo with updatedAt := 9 } } :=
  empty_payload_update sampleStore "1" 1 sampleTodo 7 9 (by decide) (by decide)

theorem isDigit_ne_minus {c : Char} (h : c.isDigit = true) : (c == '-') = false := by
  cases hc : (c == '-') with
  | false => rfl
  | true =>
    have hcc : c = '-' := by simpa using hc
    rw [hcc] at h
    exact absurd h (by decide)

theorem isDigit_ne_plus {c : Char} (h : c.isDigit = true) : (c == '+') = false := by
  cases hc : (c == '+') with
  | false => rfl
  | true =>
    have hcc : c = '+' := by simpa using hc
    rw [hcc] at h
    exact absurd h (by decide)

/-- C10: a digit-only id segment (the only shape the `[0-9]+` route pattern
lets through to the Get/Update/Delete handlers) never parses to a negative
id; parsing fails exactly when the digit value exceeds the signed 64-bit
range, and the handler's 400 "Invalid todo ID" response occurs exactly on
that overflow. -/
theorem digit_segment_parse (s : Store) (seg : String)
    (h : matchIdPattern seg = true) :
    (∀ n, parseInt64 seg = some n → 0 ≤ n) ∧
    (parseInt64 seg = none ↔ 2 ^ 63 ≤ digitsToNat seg.data) ∧
    ((routeGetTodo s seg).status = 400 ↔ 2 ^ 63 ≤ digitsToNat seg.data) := by
  have hne : seg.data.isEmpty = false := by
    cases hie : seg.data.isEmpty
    · rfl
    · exfalso
      simp [matchIdPattern, hie] at h
  have hall : seg.data.all Char.isDigit = true := by
    cases hia : seg.data.all Char.isDigit
    · exfalso
      simp [matchIdPattern, hia] at h
    · rfl
  cases hd : seg.data with
  | nil =>
    rw [hd] at hne
    simp at hne
  | cons c rest =>
    rw [hd] at hall
    have hc : c.isDigit = true := by
      have := hall
      simp [List.all_cons] at this
      exact this.1
    have hm := isDigit_ne_minus hc
    have hp := isDigit_ne_plus hc
    have hparse : parseInt64 seg =
        (if digitsToNat (c :: rest) < 2 ^ 63 then some ((digitsToNat (c :: rest) : Int))
         else none) := by
      simp [parseInt64, parseInt64Core, hd, hm, hp, hall]
    have hroute : routeGetTodo s seg = getTodoHandler s seg := by
      simp [routeGetTodo, h]
    refine ⟨?_, ?_, ?_⟩
    · intro n hn
      rw [hparse] at hn
      by_cases hlt : digitsToNat (c :: rest) < 2 ^ 63
      · rw [if_pos hlt] at hn
        have : ((digitsToNat (c :: rest) : Int)) = n := by
          injection hn
        rw [← this]
        exact Int.natCast_nonneg _
      · rw [if_neg hlt] at hn
        exact absurd hn (by simp)
    · rw [hparse]
      by_cases hlt : digitsToNat (c :: rest) < 2 ^ 63
      · simp [hlt]
      · simp [hlt]
    · rw [hroute]
      by_cases hlt : digitsToNat (c :: rest) < 2 ^ 63
      · have hps : parseInt64 seg = some ((digitsToNat (c :: rest) : Int)) := by
          rw [hparse, if_pos hlt]
        constructor
        · intro h400
          exfalso
          cases hgb : GetByID s ((digitsToNat (c :: rest) : Int)) with
          | none => simp [getTodoHandler, hps, hgb] at h400
          | some t0 => simp [getTodoHandler, hps, hgb] at h400
        · intro hge
          exact absurd hge (by omega)
      · have hps : parseInt64 seg = none := by
          rw [hparse, if_neg hlt]
        have hst : getTodoHandler s seg = { status := 400, body := Body.text "Invalid todo ID" } := by
          simp [getTodoHandler, hps]
        rw [hst]
        constructor
        · intro _
          omega
        · intro _
          rfl

/-- C10 witness: the 19-digit segment for 2^63 passes the route pattern but
overflows a signed 64-bit integer, producing the 400 response. -/
theorem digit_segment_parse_witness :
    (routeGetTodo emptyStore "9223372036854775808").status = 400 :=
  ((digit_segment_parse emptyStore "9223372036854775808" (by decide)).2.2).mpr
    (by decide)

end TodoApp
